import Mathlib

/-
Verification of the gashapon code-issuance and prefix-indexed retrieval
engine.

JS strings are modelled as lists of UTF-16 code units (`List Nat`);
the document store is modelled as an association list from keys to
documents, handed to each operation in ascending key order (the order the
store contract guarantees for range scans).  The session cache of
`src/src/db/index.js` is modelled as an explicit record threaded through
the calls, cloud-function state (`users`, `ticket-info`) as explicit
arguments and results.
-/

/-- Strict lexicographic comparison of JS strings, viewed as lists of
UTF-16 code units: the order the document store uses on keys and the JS
`<` operator uses on strings. -/
def keyLt : List Nat → List Nat → Bool
  | _, [] => false
  | [], _ :: _ => true
  | a :: as, b :: bs => decide (a < b) || (decide (a = b) && keyLt as bs)

/-- Non-strict comparison `a >= b`, i.e. `!(a < b)` for the total key
order: the inclusive lower range bound of the store. -/
def keyGe (a b : List Nat) : Bool := !keyLt a b

/-- Boolean test that the key `k` begins with the pattern `pat`. -/
def beginsWith : List Nat → List Nat → Bool
  | [], _ => true
  | _ :: _, [] => false
  | a :: pat, k :: ks => a == k && beginsWith pat ks

theorem keyLt_cons_iff {a x : Nat} {as xs : List Nat} :
    keyLt (a :: as) (x :: xs) = true ↔ a < x ∨ (a = x ∧ keyLt as xs = true) := by
  simp [keyLt]

theorem keyLt_nil_right (l : List Nat) : keyLt l [] = false := by
  cases l <;> rfl

theorem beginsWith_iff (pat k : List Nat) : beginsWith pat k = true ↔ pat <+: k := by
  induction pat generalizing k with
  | nil => simp [beginsWith]
  | cons a pat ih =>
    cases k with
    | nil => simp [beginsWith]
    | cons x xs => simp [beginsWith, List.cons_prefix_cons, ih]

/-- The `(start, stop)` pair computed at the head of `getTicketsByPrefix`
(`src/src/db/index.js` lines 85-90): `start` is the query string itself,
`stop` replaces the last character by its successor.  `String.fromCharCode`
reduces its argument modulo 2^16, and `charCodeAt(0)` of the empty string
is NaN, which `fromCharCode` maps to code unit 0. -/
def queryBounds (p : List Nat) : List Nat × List Nat :=
  let len := p.length
  let hd := p.take (len - 1)
  let tl := p.drop (len - 1)
  (p, hd ++ [match tl.head? with
    | some c => (c + 1) % 65536
    | none => 0])

theorem getLastD_cons_cons (a b d : Nat) (t : List Nat) :
    (a :: b :: t).getLastD d = (b :: t).getLastD d := by
  rw [List.getLastD_eq_getLast?, List.getLastD_eq_getLast?, List.getLast?_cons_cons]

/-- For a non-empty query string whose last code unit is below the
maximum representable one, the computed bounds are the string itself and
the string with its last code unit incremented. -/
theorem queryBounds_eq (p : List Nat) (hp : p ≠ []) (hlast : p.getLastD 0 < 65535) :
    queryBounds p = (p, p.dropLast ++ [p.getLastD 0 + 1]) := by
  induction p with
  | nil => exact absurd rfl hp
  | cons a t ih =>
    cases t with
    | nil =>
      have ha : ([a] : List Nat).getLastD 0 = a := rfl
      rw [ha] at hlast
      rw [show queryBounds [a] = ([a], [(a + 1) % 65536]) from rfl]
      simp [ha, Nat.mod_eq_of_lt (show a + 1 < 65536 by omega)]
    | cons b t' =>
      have hlast' : (b :: t').getLastD 0 < 65535 := by
        rw [getLastD_cons_cons a b 0 t'] at hlast; exact hlast
      have ih' := ih (by simp) hlast'
      have hlen : (a :: b :: t').length - 1 = (b :: t').length := by simp
      have htake : (a :: b :: t').take ((a :: b :: t').length - 1)
          = a :: (b :: t').take ((b :: t').length - 1) := by
        rw [hlen]; simp
      have hdrop : (a :: b :: t').drop ((a :: b :: t').length - 1)
          = (b :: t').drop ((b :: t').length - 1) := by
        rw [hlen]; rfl
      simp only [queryBounds] at ih' ⊢
      have h2 := congrArg Prod.snd ih'
      simp only at h2
      rw [htake, hdrop]
      simp only [List.cons_append, List.dropLast_cons₂, getLastD_cons_cons a b 0 t', h2]

/-- A key lies in the half-open range `[p, stop)` produced by the bound
computation exactly when it begins with `p`: the prefix-range emulation is
correct for every non-empty `p` whose last code unit is not the maximum. -/
theorem keyRange_iff (p : List Nat) (hp : p ≠ []) (hlast : p.getLastD 0 < 65535) :
    ∀ k, (keyGe k p && keyLt k (p.dropLast ++ [p.getLastD 0 + 1])) = true ↔ p <+: k := by
  induction p with
  | nil => exact absurd rfl hp
  | cons a t ih =>
    intro k
    cases t with
    | nil =>
      cases k with
      | nil => simp [keyGe, keyLt]
      | cons x xs =>
        rw [show (([a] : List Nat).dropLast ++ [([a] : List Nat).getLastD 0 + 1])
          = [a + 1] from rfl]
        simp only [keyGe, Bool.and_eq_true, Bool.not_eq_true', List.cons_prefix_cons]
        rw [Bool.eq_false_iff, Ne, keyLt_cons_iff, keyLt_cons_iff]
        simp [keyLt_nil_right, List.nil_prefix]
        omega
    | cons b t' =>
      have hlast' : (b :: t').getLastD 0 < 65535 := by
        rw [getLastD_cons_cons a b 0 t'] at hlast; exact hlast
      have ih' := ih (by simp) hlast'
      cases k with
      | nil => simp [keyGe, keyLt]
      | cons x xs =>
        have hstop : ((a :: b :: t').dropLast ++ [(a :: b :: t').getLastD 0 + 1])
            = a :: ((b :: t').dropLast ++ [(b :: t').getLastD 0 + 1]) := by
          rw [List.dropLast_cons₂, getLastD_cons_cons a b 0 t', List.cons_append]
        rw [hstop]
        simp only [keyGe, Bool.and_eq_true, Bool.not_eq_true', List.cons_prefix_cons]
        rw [Bool.eq_false_iff, Ne, keyLt_cons_iff, keyLt_cons_iff]
        have hxt := ih' xs
        simp only [keyGe, Bool.and_eq_true, Bool.not_eq_true'] at hxt
        rcases Nat.lt_trichotomy x a with h | h | h
        · constructor
          · rintro ⟨hg, _⟩; exact absurd (Or.inl h) hg
          · rintro ⟨he, _⟩; omega
        · subst h
          constructor
          · rintro ⟨hg, hl⟩
            have hg' : keyLt xs (b :: t') = false := by
              rcases Bool.eq_false_or_eq_true (keyLt xs (b :: t')) with hb | hb
              · exact absurd (Or.inr ⟨rfl, hb⟩) hg
              · exact hb
            have hl' : keyLt xs ((b :: t').dropLast ++ [(b :: t').getLastD 0 + 1]) = true := by
              rcases hl with hl | ⟨_, hl⟩
              · omega
              · exact hl
            exact ⟨rfl, hxt.mp ⟨hg', hl'⟩⟩
          · rintro ⟨_, hpre⟩
            have h2 := hxt.mpr hpre
            refine ⟨?_, Or.inr ⟨rfl, h2.2⟩⟩
            rintro (hlt | ⟨_, hk⟩)
            · omega
            · rw [h2.1] at hk; exact Bool.false_ne_true hk
        · constructor
          · rintro ⟨_, hl⟩
            rcases hl with hl | ⟨hl, _⟩ <;> omega
          · rintro ⟨he, _⟩; omega

/-- A ticket entry as built by `getTicketsByPrefix`: the document data,
the 1-based positional id the function assigns (`d.id = data.length+1`),
and the document key (`d.code = doc.id`). -/
structure TEntry (α : Type) where
  data : α
  id : Nat
  code : List Nat
deriving DecidableEq

/-- The session cache of `src/src/db/index.js` (lines 15-20).  `none`
models a field that is absent (`undefined`) or `null`; both are falsy. -/
structure DbCache (α : Type) where
  shopTag : Option (List Nat)
  ticketData : Option (List (TEntry α))
  prizeData : Option (List α)
  uid : Option Nat
deriving DecidableEq

/-- The initial cache literal: `{shopTag: null, ticketData: [],
prizeData: null, uid: null}`. -/
def initialCache {α : Type} : DbCache α := ⟨none, some [], none, none⟩

/-- `clearCachedData` (lines 23-25) replaces the cache with `{}`: every
field becomes absent. -/
def clearCachedData {α : Type} : DbCache α := ⟨none, none, none, none⟩

/-- The store's range scan: all documents with `start <= key < stop`, in
store order.  The store contract delivers documents in ascending key
order, so theorems assume the association list is sorted by `keyLt`. -/
def rangeScan {α : Type} (store : List (List Nat × α)) (start stop : List Nat) :
    List (List Nat × α) :=
  store.filter (fun kv => keyGe kv.1 start && keyLt kv.1 stop)

/-- `getTicketsByPrefix` (`src/src/db/index.js` lines 84-114).  Computes
the range bounds, then serves the cached `ticketData` whenever it is
present and non-empty, and otherwise runs the range scan, tags each hit
with a 1-based id and its key, caches and returns the list.  The third
component records whether the store scan was executed (`getDocs` ran). -/
def getTicketsByPrefix {α : Type} (store : List (List Nat × α)) (c : DbCache α)
    (p : List Nat) : List (TEntry α) × DbCache α × Bool :=
  let bounds := queryBounds p
  let scan := rangeScan store bounds.1 bounds.2
  let fresh := scan.enum.map (fun ik => (⟨ik.2.2, ik.1 + 1, ik.2.1⟩ : TEntry α))
  let miss : List (TEntry α) × DbCache α × Bool :=
    (fresh, ⟨c.shopTag, some fresh, c.prizeData, c.uid⟩, true)
  match c.ticketData with
  | some l => if 0 < l.length then (l, c, false) else miss
  | none => miss

/-- A record passed to `saveTicketsToMemory` / `savePrizesToMemory`: a
payload plus the mutable `id` slot the function assigns. -/
structure SRec (α : Type) where
  payload : α
  id : Option Nat
deriving DecidableEq

/-- An element of the cached sequence built by the save functions.  In
the initialized branch each stored element is a single record; in the
uninitialized branch the JS code stores the whole input array as the one
element of a fresh array (`cache.ticketData = [data]`). -/
inductive SItem (α : Type) where
  | record (r : SRec α)
  | arr (rs : List (SRec α))
deriving DecidableEq

/-- The loop of `saveTicketsToMemory` (lines 34-37): for each new record,
set `id` to the current cached length plus one and concatenate. -/
def saveLoop {α : Type} : List (SItem α) → List (SRec α) → List (SItem α)
  | cur, [] => cur
  | cur, r :: rs => saveLoop (cur ++ [SItem.record ⟨r.payload, some (cur.length + 1)⟩]) rs

/-- `saveTicketsToMemory` (lines 32-42), acting on the cached
`ticketData` value and returning the new cached value.  When the cached
field is absent the function stores the input array itself as a single
element. -/
def saveTicketsToMemory {α : Type} (ticketData : Option (List (SItem α)))
    (data : List (SRec α)) : List (SItem α) :=
  match ticketData with
  | some cur => saveLoop cur data
  | none => [SItem.arr data]

/-- `savePrizesToMemory` (lines 49-59): identical body, acting on the
cached `prizeData` value. -/
def savePrizesToMemory {α : Type} (prizeData : Option (List (SItem α)))
    (data : List (SRec α)) : List (SItem α) :=
  match prizeData with
  | some cur => saveLoop cur data
  | none => [SItem.arr data]

/-- The behaviour the specification describes for the save functions:
append each record with a sequential local id continuing from the given
length. -/
def withIds {α : Type} (base : Nat) : List (SRec α) → List (SItem α)
  | [] => []
  | r :: rs => SItem.record ⟨r.payload, some (base + 1)⟩ :: withIds (base + 1) rs

/-- JS `String.prototype.toUpperCase`, per code unit (ASCII range; the
code applies it to hexadecimal digits only). -/
def asciiToUpper (c : Nat) : Nat := if 97 ≤ c ∧ c ≤ 122 then c - 32 else c

/-- JS `String.prototype.toLowerCase`, per code unit (ASCII range). -/
def asciiToLower (c : Nat) : Nat := if 65 ≤ c ∧ c ≤ 90 then c + 32 else c

/-- The code unit of the lowercase hexadecimal digit for a value below
16, as produced by `Buffer.toString("hex")`. -/
def lowerHexDigit (n : Nat) : Nat := if n < 10 then 48 + n else 87 + n

/-- The suffix built by `generateTickets` from one draw of
`crypto.randomBytes(3)`: each byte rendered as two lowercase hex digits,
then uppercased. -/
def renderSuffix (b : Nat × Nat × Nat) : List Nat :=
  ([lowerHexDigit (b.1 / 16 % 16), lowerHexDigit (b.1 % 16),
    lowerHexDigit (b.2.1 / 16 % 16), lowerHexDigit (b.2.1 % 16),
    lowerHexDigit (b.2.2 / 16 % 16), lowerHexDigit (b.2.2 % 16)]).map asciiToUpper

/-- One ticket-code claim of the `generateTickets` loop body
(`src/functions/src/index.ts` lines 176-183): draw a suffix, build
`` `${shopTag}-${suffix}` `` (45 is the code unit of `-`), and while the
code already exists in the `ticket-info` collection draw again.  The
random stream is a finite list of 3-byte draws; an exhausted stream
(`none`) models the uncapped retry loop never finding a fresh code. -/
def claimFresh (store : List (List Nat)) (shopTag : List Nat) :
    List (Nat × Nat × Nat) → Option (List Nat × List (Nat × Nat × Nat))
  | [] => none
  | b :: rest =>
    let code := shopTag ++ 45 :: renderSuffix b
    if code ∈ store then claimFresh store shopTag rest
    else some (code, rest)

/-- The ticket document written for each generated code (lines 186-194). -/
structure TicketDoc where
  createdAt : Nat
  email : List Nat
  memo : List Nat
  orderID : Option Nat
  prizeID : Option Nat
  redeemed : Bool
  shipped : Bool
deriving DecidableEq

/-- A user document in the `users` collection (lines 127-130). -/
structure UserDoc where
  createdAt : Nat
  shopTag : List Nat
deriving DecidableEq

/-- The value of `data.amount` as the range check sees it: a JS number,
or `undefined` (a missing field), or `NaN`; comparisons against the
latter two are always false. -/
inductive JSNum where
  | undef
  | nan
  | num (q : ℚ)
deriving DecidableEq

/-- JS `a > r` for the modelled amount. -/
def jsGtNum : JSNum → ℚ → Bool
  | .num q, r => decide (r < q)
  | _, _ => false

/-- JS `a < r` for the modelled amount. -/
def jsLtNum : JSNum → ℚ → Bool
  | .num q, r => decide (q < r)
  | _, _ => false

/-- The number of iterations of `for (let i = 0; i < amount; i++)`: the
least natural number not below `amount`; zero when `amount` is
`undefined` or `NaN` (the comparison is false at once). -/
def iterCount : JSNum → Nat
  | .num q => (⌈q⌉).toNat
  | _ => 0

/-- The categorized failures `generateTickets` and `userLoggedIn` can
throw, plus `nonTermination`, which models the uncapped collision-retry
loop exhausting the finite modelled random stream. -/
inductive CallError where
  | unauthenticated
  | outOfRange
  | unknown
  | nonTermination
deriving DecidableEq

/-- The ticket-generation loop (lines 174-205): `n` claims, each one
writing its ticket document (the write is modelled as immediately visible
to later existence checks) and appending `tickets[code] = ticketData`.
Returns `none` in the first component when the stream runs out, plus the
list of writes performed. -/
def genLoop (shopTag : List Nat) (ts : Nat) (email memo : List Nat) :
    Nat → List (List Nat) → List (Nat × Nat × Nat) →
      Option Unit × List (List Nat × TicketDoc)
  | 0, _, _ => (some (), [])
  | n + 1, store, stream =>
    match claimFresh store shopTag stream with
    | none => (none, [])
    | some (code, rest) =>
      let ticketData : TicketDoc := ⟨ts, email, memo, none, none, false, false⟩
      let r := genLoop shopTag ts email memo n (code :: store) rest
      (r.1, (code, ticketData) :: r.2)

/-- `generateTickets` (`src/functions/src/index.ts` lines 143-208).
Checks authentication, validates `amount`, reads the caller's shop tag
from `users` (a missing document makes `snapshot.data()` undefined and
the thrown TypeError surfaces as an `unknown` HttpsError), then runs the
generation loop.  The first component is the call's result (the returned
`tickets` mapping, as an association list in insertion order); the second
is the list of `ticket-info` writes performed. -/
def generateTickets (auth : Option Nat) (users : Nat → Option UserDoc)
    (amount : JSNum) (email memo : List Nat) (ts : Nat)
    (store : List (List Nat)) (stream : List (Nat × Nat × Nat)) :
    Except CallError (List (List Nat × TicketDoc)) × List (List Nat × TicketDoc) :=
  match auth with
  | none => (.error .unauthenticated, [])
  | some uid =>
    if jsGtNum amount 10 || jsLtNum amount 1 then (.error .outOfRange, [])
    else
      match users uid with
      | none => (.error .unknown, [])
      | some u =>
        match genLoop u.shopTag ts email memo (iterCount amount) store stream with
        | (some _, ws) => (.ok ws, ws)
        | (none, ws) => (.error .nonTermination, ws)

/-- The default shop tag derived in `initUserAccount` (lines 121-123):
the part of the e-mail before the first `@` (code unit 64), cut to at
most 5 leading characters, lowercased. -/
def defaultShopTag (email : List Nat) : List Nat :=
  let emailPre := email.takeWhile (fun c => c ≠ 64)
  let numChars := if emailPre.length ≥ 5 then 5 else emailPre.length
  (emailPre.take numChars).map asciiToLower

/-- `initUserAccount` (lines 114-140): a no-op returning `false` when the
user document exists, otherwise writes `{createdAt, shopTag}` and returns
`true`.  The second component is the resulting `users` collection. -/
def initUserAccount (users : Nat → Option UserDoc) (uid : Nat) (email : List Nat)
    (ts : Nat) : Bool × (Nat → Option UserDoc) :=
  if (users uid).isSome then (false, users)
  else (true, fun u => if u = uid then some ⟨ts, defaultShopTag email⟩ else users u)

/-- `userLoggedIn` (lines 86-104): requires authentication, resolves the
caller's e-mail through the identity provider, and reports `"created"`
or `"success"` according to `initUserAccount`. -/
def userLoggedIn (auth : Option Nat) (emailOf : Nat → List Nat)
    (users : Nat → Option UserDoc) (ts : Nat) :
    Except CallError (String × (Nat → Option UserDoc)) :=
  match auth with
  | none => .error .unauthenticated
  | some uid =>
    let r := initUserAccount users uid (emailOf uid) ts
    if r.1 then .ok ("created", r.2) else .ok ("success", r.2)

/-- Code unit of an uppercase hexadecimal digit. -/
def isUpperHexDigit (c : Nat) : Bool := (48 ≤ c && c ≤ 57) || (65 ≤ c && c ≤ 70)

/-- Boolean form of "`code` matches `^<tag>-[0-9A-F]{6}$`". -/
def codeMatches (tag code : List Nat) : Bool :=
  let suffix := code.drop (tag.length + 1)
  code == tag ++ 45 :: suffix && suffix.length == 6 && suffix.all isUpperHexDigit

/-- C5: for every e-mail, the derived default shop tag equals the
lowercased prefix of the e-mail's local part (the substring before the
first `@`), of length `min 5 (length of the local part)`; the derivation
is a pure function of the e-mail. -/
theorem defaultShopTag_spec (email : List Nat) :
    defaultShopTag email
      = ((email.takeWhile (fun c => c ≠ 64)).map asciiToLower).take 5 ∧
    (defaultShopTag email).length
      = min 5 (email.takeWhile (fun c => c ≠ 64)).length := by
  have h1 : defaultShopTag email
      = ((email.takeWhile (fun c => c ≠ 64)).map asciiToLower).take 5 := by
    unfold defaultShopTag
    rw [List.map_take]
    by_cases h : (email.takeWhile (fun c => c ≠ 64)).length ≥ 5
    · rw [if_pos h]
    · rw [if_neg h]
      have e1 : ((email.takeWhile (fun c => c ≠ 64)).map asciiToLower).take
          (email.takeWhile (fun c => c ≠ 64)).length
          = (email.takeWhile (fun c => c ≠ 64)).map asciiToLower :=
        List.take_of_length_le (by simp)
      have e2 : ((email.takeWhile (fun c => c ≠ 64)).map asciiToLower).take 5
          = (email.takeWhile (fun c => c ≠ 64)).map asciiToLower :=
        List.take_of_length_le (by simp only [List.length_map]; omega)
      rw [e1, e2]
  refine ⟨h1, ?_⟩
  rw [h1]
  simp [List.length_take]

/-- C8 (counterexample): with the cached ticket list unset, as it is
right after `clearCachedData`, `saveTicketsToMemory` does not append the
new records with sequential ids; it stores the whole input array as a
single nested element and assigns no id. -/
theorem saveToMemory_unset_counterexample :
    saveTicketsToMemory (none : Option (List (SItem Nat))) [(⟨0, none⟩ : SRec Nat)]
        = [SItem.arr [(⟨0, none⟩ : SRec Nat)]] ∧
    saveTicketsToMemory (none : Option (List (SItem Nat))) [(⟨0, none⟩ : SRec Nat)]
        ≠ ([] : List (SItem Nat)) ++ withIds 0 [(⟨0, none⟩ : SRec Nat)] := by
  exact ⟨rfl, by decide⟩

/-- C8 (amended): whenever the corresponding cached sequence is present
(possibly empty), `saveTicketsToMemory` and `savePrizesToMemory` append
each new record to it with a sequential local id continuing from the
current cached length, and return the updated sequence; when the cached
sequence is unset they instead store the whole new-record list as a
single nested element, with no ids assigned. -/
theorem saveToMemory_append_spec {α : Type} (cur : List (SItem α)) (data : List (SRec α)) :
    saveTicketsToMemory (some cur) data = cur ++ withIds cur.length data ∧
    savePrizesToMemory (some cur) data = cur ++ withIds cur.length data ∧
    saveTicketsToMemory none data = [SItem.arr data] ∧
    savePrizesToMemory none data = [SItem.arr data] := by
  have key : ∀ (d : List (SRec α)) (c : List (SItem α)),
      saveLoop c d = c ++ withIds c.length d := by
    intro d
    induction d with
    | nil => intro c; simp [saveLoop, withIds]
    | cons r rs ih =>
      intro c
      rw [show saveLoop c (r :: rs)
          = saveLoop (c ++ [SItem.record ⟨r.payload, some (c.length + 1)⟩]) rs from rfl]
      rw [ih]
      simp [withIds, List.append_assoc]
  exact ⟨key data cur, key data cur, rfl, rfl⟩

/-- C6: `userLoggedIn`/`initUserAccount` is idempotent.  When the user
document exists the call is a no-op reporting `success`; otherwise it
writes a document carrying `createdAt` and the shop tag derived from the
e-mail and reports `created`, and a second call after that first call is
a no-op reporting `success`, not an error. -/
theorem userLoggedIn_idempotent (uid : Nat) (emailOf : Nat → List Nat)
    (users : Nat → Option UserDoc) (ts ts2 : Nat) :
    ((users uid).isSome = true →
      userLoggedIn (some uid) emailOf users ts = .ok ("success", users)) ∧
    (users uid = none →
      userLoggedIn (some uid) emailOf users ts
        = .ok ("created",
            fun u => if u = uid then some ⟨ts, defaultShopTag (emailOf uid)⟩ else users u) ∧
      userLoggedIn (some uid) emailOf
          (fun u => if u = uid then some ⟨ts, defaultShopTag (emailOf uid)⟩ else users u) ts2
        = .ok ("success",
            fun u => if u = uid then some ⟨ts, defaultShopTag (emailOf uid)⟩ else users u)) := by
  constructor
  · intro h
    simp [userLoggedIn, initUserAccount, h]
  · intro h
    have h' : (users uid).isSome = false := by rw [h]; rfl
    constructor
    · simp [userLoggedIn, initUserAccount, h']
    · simp [userLoggedIn, initUserAccount]

/-- Witness for C6 at a concrete new account: uid 0, e-mail `a@b`. -/
theorem userLoggedIn_idempotent_witness :
    userLoggedIn (some 0) (fun _ => [97, 64, 98]) (fun _ => none) 5
      = .ok ("created",
          fun u => if u = 0 then some ⟨5, defaultShopTag [97, 64, 98]⟩
            else (fun _ => (none : Option UserDoc)) u) :=
  ((userLoggedIn_idempotent 0 (fun _ => [97, 64, 98]) (fun _ => none) 5 9).2 rfl).1

theorem claimFresh_not_mem (store : List (List Nat)) (shopTag : List Nat) :
    ∀ (stream : List (Nat × Nat × Nat)) (code : List Nat)
      (rest : List (Nat × Nat × Nat)),
      claimFresh store shopTag stream = some (code, rest) → code ∉ store := by
  intro stream
  induction stream with
  | nil => intro code rest h; exact absurd h (by simp [claimFresh])
  | cons b r ih =>
    intro code rest h
    simp only [claimFresh] at h
    by_cases hm : (shopTag ++ 45 :: renderSuffix b) ∈ store
    · rw [if_pos hm] at h
      exact ih code rest h
    · rw [if_neg hm] at h
      cases h
      exact hm

theorem genLoop_fresh (shopTag : List Nat) (ts : Nat) (email memo : List Nat) :
    ∀ (n : Nat) (store : List (List Nat)) (stream : List (Nat × Nat × Nat))
      (r : Option Unit) (ws : List (List Nat × TicketDoc)),
      genLoop shopTag ts email memo n store stream = (r, ws) →
      ∀ (i : Nat) (hi : i < ws.length),
        (ws.get ⟨i, hi⟩).1 ∉ store ++ (ws.map Prod.fst).take i := by
  intro n
  induction n with
  | zero =>
    intro store stream r ws heq i hi
    rw [show genLoop shopTag ts email memo 0 store stream = (some (), []) from rfl] at heq
    cases heq
    simp at hi
  | succ n ih =>
    intro store stream r ws heq i hi
    rw [show genLoop shopTag ts email memo (n + 1) store stream
        = match claimFresh store shopTag stream with
          | none => (none, [])
          | some (code, rest) =>
            ((genLoop shopTag ts email memo n (code :: store) rest).1,
              (code, (⟨ts, email, memo, none, none, false, false⟩ : TicketDoc))
                :: (genLoop shopTag ts email memo n (code :: store) rest).2)
        from rfl] at heq
    cases hcf : claimFresh store shopTag stream with
    | none =>
      rw [hcf] at heq
      cases heq
      simp at hi
    | some cr =>
      obtain ⟨code, rest⟩ := cr
      rw [hcf] at heq
      cases heq
      cases i with
      | zero =>
        simp only [List.get, List.take_zero, List.append_nil]
        exact claimFresh_not_mem store shopTag stream code rest hcf
      | succ i =>
        simp only [List.length_cons, Nat.succ_lt_succ_iff] at hi
        have h := ih (code :: store) rest
          (genLoop shopTag ts email memo n (code :: store) rest).1
          (genLoop shopTag ts email memo n (code :: store) rest).2 rfl i hi
        simp only [List.get, List.map_cons, List.take_succ_cons, List.mem_append,
          List.mem_cons, not_or] at h ⊢
        tauto

/-- C2: `generateTickets` never returns or writes a code whose existence
check against `ticket-info` came back positive: the returned mapping is
exactly the list of writes, and each written code was absent from the
store as it stood at that code's final existence check (the initial store
plus the codes written earlier in the batch). -/
theorem generateTickets_fresh_codes (auth : Option Nat) (users : Nat → Option UserDoc)
    (amount : JSNum) (email memo : List Nat) (ts : Nat) (store : List (List Nat))
    (stream : List (Nat × Nat × Nat)) (ws : List (List Nat × TicketDoc))
    (h : (generateTickets auth users amount email memo ts store stream).1 = .ok ws) :
    (generateTickets auth users amount email memo ts store stream).2 = ws ∧
    ∀ (i : Nat) (hi : i < ws.length),
      (ws.get ⟨i, hi⟩).1 ∉ store ++ (ws.map Prod.fst).take i := by
  cases auth with
  | none => simp [generateTickets] at h
  | some uid =>
    cases hb : (jsGtNum amount 10 || jsLtNum amount 1) with
    | true => simp [generateTickets, hb] at h
    | false =>
      cases hu : users uid with
      | none => simp [generateTickets, hb, hu] at h
      | some u =>
        cases hg : genLoop u.shopTag ts email memo (iterCount amount) store stream with
        | mk r ws2 =>
          cases r with
          | none => simp [generateTickets, hb, hu, hg] at h
          | some x =>
            have h2 : ws2 = ws := by
              simp [generateTickets, hb, hu, hg] at h
              exact h
            subst h2
            refine ⟨by simp [generateTickets, hb, hu, hg], ?_⟩
            exact fun i hi =>
              genLoop_fresh u.shopTag ts email memo (iterCount amount) store stream
                (some x) ws2 hg i hi

/-- Witness for C2: one ticket for shop tag `a` against a store already
holding `a-000000`; the first draw collides and is resampled, and the
write is the fresh code `a-000001`. -/
theorem generateTickets_fresh_codes_witness :
    (generateTickets (some 0) (fun _ => some ⟨0, [97]⟩) (JSNum.num 1) [] [] 7
        [[97, 45, 48, 48, 48, 48, 48, 48]] [(0, 0, 0), (0, 0, 1)]).2
      = [([97, 45, 48, 48, 48, 48, 48, 49],
          (⟨7, [], [], none, none, false, false⟩ : TicketDoc))] :=
  (generateTickets_fresh_codes (some 0) (fun _ => some ⟨0, [97]⟩) (JSNum.num 1) [] [] 7
    [[97, 45, 48, 48, 48, 48, 48, 48]] [(0, 0, 0), (0, 0, 1)]
    [([97, 45, 48, 48, 48, 48, 48, 49],
      (⟨7, [], [], none, none, false, false⟩ : TicketDoc))] (by rfl)).1

/-- C4: with an authenticated caller, every numeric amount outside 1..10
(in particular 0, 11 and every negative amount) makes `generateTickets`
fail with the out-of-range validation error having performed zero writes,
and every numeric amount within 1..10 passes the validation. -/
theorem generateTickets_amount_validation (users : Nat → Option UserDoc)
    (email memo : List Nat) (ts : Nat) (store : List (List Nat))
    (stream : List (Nat × Nat × Nat)) (uid : Nat) (q : ℚ) :
    ((q < 1 ∨ 10 < q) →
      generateTickets (some uid) users (JSNum.num q) email memo ts store stream
        = (.error .outOfRange, [])) ∧
    (1 ≤ q → q ≤ 10 →
      (generateTickets (some uid) users (JSNum.num q) email memo ts store stream).1
        ≠ .error .outOfRange) := by
  constructor
  · intro hq
    have hb : (jsGtNum (JSNum.num q) 10 || jsLtNum (JSNum.num q) 1) = true := by
      rcases hq with h | h <;> simp [jsGtNum, jsLtNum, h]
    simp [generateTickets, hb]
  · intro h1 h10
    have hb : (jsGtNum (JSNum.num q) 10 || jsLtNum (JSNum.num q) 1) = false := by
      simp only [jsGtNum, jsLtNum, Bool.or_eq_false_iff, decide_eq_false_iff_not, not_lt]
      exact ⟨h10, h1⟩
    cases hu : users uid with
    | none => simp [generateTickets, hb, hu]
    | some u =>
      cases hg : genLoop u.shopTag ts email memo (iterCount (JSNum.num q)) store stream with
      | mk r ws =>
        cases r <;> simp [generateTickets, hb, hu, hg]

/-- Witness for C4: amount 0 is rejected out of range with no writes. -/
theorem generateTickets_amount_validation_witness :
    generateTickets (some 0) (fun _ => none) (JSNum.num 0) [] [] 0 [] []
      = (.error .outOfRange, []) :=
  (generateTickets_amount_validation (fun _ => none) [] [] 0 [] [] 0 0).1
    (Or.inl (by decide))

theorem dropAfter (t s : List Nat) (x : Nat) :
    (t ++ x :: s).drop (t.length + 1) = s := by
  induction t with
  | nil => rfl
  | cons a t ih => simp [ih]

theorem renderSuffix_hex (b : Nat × Nat × Nat) :
    (renderSuffix b).length = 6 ∧ (renderSuffix b).all isUpperHexDigit = true := by
  have h : ∀ m, m < 16 → isUpperHexDigit (asciiToUpper (lowerHexDigit m)) = true := by decide
  refine ⟨rfl, ?_⟩
  simp only [renderSuffix, List.map_cons, List.map_nil, List.all_cons, List.all_nil,
    Bool.and_eq_true]
  exact ⟨h _ (Nat.mod_lt _ (by omega)), h _ (Nat.mod_lt _ (by omega)),
    h _ (Nat.mod_lt _ (by omega)), h _ (Nat.mod_lt _ (by omega)),
    h _ (Nat.mod_lt _ (by omega)), h _ (Nat.mod_lt _ (by omega)), trivial⟩

theorem claimFresh_shape (store : List (List Nat)) (shopTag : List Nat) :
    ∀ (stream : List (Nat × Nat × Nat)) (code : List Nat)
      (rest : List (Nat × Nat × Nat)),
      claimFresh store shopTag stream = some (code, rest) →
      codeMatches shopTag code = true := by
  intro stream
  induction stream with
  | nil => intro code rest h; exact absurd h (by simp [claimFresh])
  | cons b r ih =>
    intro code rest h
    simp only [claimFresh] at h
    by_cases hm : (shopTag ++ 45 :: renderSuffix b) ∈ store
    · rw [if_pos hm] at h
      exact ih code rest h
    · rw [if_neg hm] at h
      cases h
      have hdrop : (shopTag ++ 45 :: renderSuffix b).drop (shopTag.length + 1)
          = renderSuffix b := dropAfter shopTag (renderSuffix b) 45
      have hr := renderSuffix_hex b
      simp [codeMatches, hdrop, hr.1, hr.2]

theorem genLoop_shape (shopTag : List Nat) (ts : Nat) (email memo : List Nat) :
    ∀ (n : Nat) (store : List (List Nat)) (stream : List (Nat × Nat × Nat))
      (r : Option Unit) (ws : List (List Nat × TicketDoc)),
      genLoop shopTag ts email memo n store stream = (r, ws) →
      ∀ w ∈ ws, codeMatches shopTag w.1 = true ∧
        w.2 = (⟨ts, email, memo, none, none, false, false⟩ : TicketDoc) := by
  intro n
  induction n with
  | zero =>
    intro store stream r ws heq w hw
    rw [show genLoop shopTag ts email memo 0 store stream = (some (), []) from rfl] at heq
    cases heq
    simp at hw
  | succ n ih =>
    intro store stream r ws heq w hw
    rw [show genLoop shopTag ts email memo (n + 1) store stream
        = match claimFresh store shopTag stream with
          | none => (none, [])
          | some (code, rest) =>
            ((genLoop shopTag ts email memo n (code :: store) rest).1,
              (code, (⟨ts, email, memo, none, none, false, false⟩ : TicketDoc))
                :: (genLoop shopTag ts email memo n (code :: store) rest).2)
        from rfl] at heq
    cases hcf : claimFresh store shopTag stream with
    | none =>
      rw [hcf] at heq
      cases heq
      simp at hw
    | some cr =>
      obtain ⟨code, rest⟩ := cr
      rw [hcf] at heq
      cases heq
      rcases List.mem_cons.mp hw with hw | hw
      · subst hw
        exact ⟨claimFresh_shape store shopTag stream code rest hcf, rfl⟩
      · exact ih (code :: store) rest
          (genLoop shopTag ts email memo n (code :: store) rest).1
          (genLoop shopTag ts email memo n (code :: store) rest).2 rfl w hw

/-- C7: every ticket written by `generateTickets` for an authenticated
caller whose user document carries shop tag `u.shopTag` has a code
matching `^<shopTag>-[0-9A-F]{6}$` (the suffix renders 3 random bytes as
6 uppercase hexadecimal characters), and its document is created with
`redeemed = false`, `shipped = false`, `orderID = null`, `prizeID =
null`. -/
theorem generateTickets_ticket_shape (users : Nat → Option UserDoc) (amount : JSNum)
    (email memo : List Nat) (ts : Nat) (store : List (List Nat))
    (stream : List (Nat × Nat × Nat)) (uid : Nat) (u : UserDoc)
    (hu : users uid = some u) :
    ∀ w ∈ (generateTickets (some uid) users amount email memo ts store stream).2,
      codeMatches u.shopTag w.1 = true ∧ w.2.redeemed = false ∧ w.2.shipped = false ∧
      w.2.orderID = none ∧ w.2.prizeID = none := by
  intro w hw
  cases hb : (jsGtNum amount 10 || jsLtNum amount 1) with
  | true => simp [generateTickets, hb] at hw
  | false =>
    cases hg : genLoop u.shopTag ts email memo (iterCount amount) store stream with
    | mk r ws =>
      have hw2 : w ∈ ws := by
        cases r <;> simpa [generateTickets, hb, hu, hg] using hw
      have hs := genLoop_shape u.shopTag ts email memo (iterCount amount) store stream
        r ws hg w hw2
      refine ⟨hs.1, ?_, ?_, ?_, ?_⟩ <;> rw [hs.2]

/-- Witness for C7: shop tag `alice`, one draw of bytes `(0,0,0)`; the
written ticket is `alice-000000` with all lifecycle fields at their
defaults. -/
theorem generateTickets_ticket_shape_witness :
    codeMatches [97, 108, 105, 99, 101]
        [97, 108, 105, 99, 101, 45, 48, 48, 48, 48, 48, 48] = true ∧
    (⟨7, [], [], none, none, false, false⟩ : TicketDoc).redeemed = false ∧
    (⟨7, [], [], none, none, false, false⟩ : TicketDoc).shipped = false ∧
    (⟨7, [], [], none, none, false, false⟩ : TicketDoc).orderID = none ∧
    (⟨7, [], [], none, none, false, false⟩ : TicketDoc).prizeID = none :=
  generateTickets_ticket_shape (fun _ => some ⟨0, [97, 108, 105, 99, 101]⟩)
    (JSNum.num 1) [] [] 7 [] [(0, 0, 0)] 0 ⟨0, [97, 108, 105, 99, 101]⟩ rfl
    ([97, 108, 105, 99, 101, 45, 48, 48, 48, 48, 48, 48],
      (⟨7, [], [], none, none, false, false⟩ : TicketDoc)) (by decide)

/-- C10: when the amount argument is not a number (`undefined` because
the field is missing, or `NaN`), the out-of-range validation does not
reject it: for an authenticated caller with a user document the call
succeeds, performs zero ticket writes, and returns an empty mapping. -/
theorem generateTickets_nonnumeric_amount (users : Nat → Option UserDoc)
    (amount : JSNum) (email memo : List Nat) (ts : Nat) (store : List (List Nat))
    (stream : List (Nat × Nat × Nat)) (uid : Nat) (u : UserDoc)
    (hu : users uid = some u) (hn : amount = JSNum.undef ∨ amount = JSNum.nan) :
    generateTickets (some uid) users amount email memo ts store stream
      = (.ok [], []) := by
  rcases hn with h | h <;> subst h <;>
    simp [generateTickets, jsGtNum, jsLtNum, iterCount, genLoop, hu]

/-- Witness for C10: a missing amount yields a successful call, no
writes, and an empty mapping. -/
theorem generateTickets_nonnumeric_amount_witness :
    generateTickets (some 0) (fun _ => some ⟨0, [97]⟩) JSNum.undef [] [] 0 [] []
      = (.ok [], []) :=
  generateTickets_nonnumeric_amount (fun _ => some ⟨0, [97]⟩) JSNum.undef [] [] 0 [] []
    0 ⟨0, [97]⟩ rfl (Or.inl rfl)

theorem getTicketsByPrefix_miss {α : Type} (store : List (List Nat × α)) (c : DbCache α)
    (p : List Nat) (hc : c.ticketData = none ∨ c.ticketData = some []) :
    getTicketsByPrefix store c p
      = ((rangeScan store (queryBounds p).1 (queryBounds p).2).enum.map
            (fun ik => (⟨ik.2.2, ik.1 + 1, ik.2.1⟩ : TEntry α)),
          ⟨c.shopTag, some ((rangeScan store (queryBounds p).1 (queryBounds p).2).enum.map
            (fun ik => (⟨ik.2.2, ik.1 + 1, ik.2.1⟩ : TEntry α))), c.prizeData, c.uid⟩,
          true) := by
  rcases hc with h | h <;> simp [getTicketsByPrefix, h]

theorem getTicketsByPrefix_hit {α : Type} (store : List (List Nat × α)) (c : DbCache α)
    (p : List Nat) (l : List (TEntry α)) (hl : c.ticketData = some l) (hne : l ≠ []) :
    getTicketsByPrefix store c p = (l, c, false) := by
  have hpos : 0 < l.length := List.length_pos.mpr hne
  simp [getTicketsByPrefix, hl, hpos]

theorem getTicketsByPrefix_cache_state {α : Type} (store : List (List Nat × α))
    (c : DbCache α) (p : List Nat) :
    (getTicketsByPrefix store c p).2.1.ticketData
      = some (getTicketsByPrefix store c p).1 := by
  cases hc : c.ticketData with
  | none => simp [getTicketsByPrefix, hc]
  | some l =>
    by_cases h : 0 < l.length
    · simp [getTicketsByPrefix, hc, h]
    · simp [getTicketsByPrefix, hc, h]

theorem enumEntries_proj {α : Type} (l : List (List Nat × α)) :
    ((l.enum.map (fun ik => (⟨ik.2.2, ik.1 + 1, ik.2.1⟩ : TEntry α))).map
      (fun e => (e.code, e.data))) = l := by
  rw [List.map_map]
  have h1 : ((fun e : TEntry α => (e.code, e.data))
      ∘ (fun ik : Nat × (List Nat × α) => (⟨ik.2.2, ik.1 + 1, ik.2.1⟩ : TEntry α)))
      = Prod.snd := by
    funext ik
    rfl
  rw [h1, List.enum_map_snd]

theorem enumEntries_code {α : Type} (l : List (List Nat × α)) :
    ((l.enum.map (fun ik => (⟨ik.2.2, ik.1 + 1, ik.2.1⟩ : TEntry α))).map
      (fun e => e.code)) = l.map Prod.fst := by
  rw [List.map_map]
  have h1 : ((fun e : TEntry α => e.code)
      ∘ (fun ik : Nat × (List Nat × α) => (⟨ik.2.2, ik.1 + 1, ik.2.1⟩ : TEntry α)))
      = Prod.fst ∘ Prod.snd := rfl
  rw [h1, ← List.map_map, List.enum_map_snd]

theorem rangeScan_eq_filter {α : Type} (store : List (List Nat × α)) (p : List Nat)
    (hp : p ≠ []) (hlast : p.getLastD 0 < 65535) :
    rangeScan store (queryBounds p).1 (queryBounds p).2
      = store.filter (fun kv => beginsWith p kv.1) := by
  unfold rangeScan
  apply List.filter_congr
  intro kv _
  have hq := queryBounds_eq p hp hlast
  rw [hq]
  show (keyGe kv.1 p && keyLt kv.1 (p.dropLast ++ [p.getLastD 0 + 1]))
      = beginsWith p kv.1
  have h1 := keyRange_iff p hp hlast kv.1
  have h2 := beginsWith_iff p kv.1
  cases hbW : beginsWith p kv.1 with
  | false =>
    rw [Bool.eq_false_iff, Ne, h1, ← h2, hbW]
    simp
  | true =>
    rw [h1, ← h2, hbW]

/-- C1: over a store handed over in ascending key order, for every
non-empty query string whose last code unit is not the maximum
representable one, and a cache whose ticket list is empty (or unset),
`getTicketsByPrefix` computes the bound pair `(start = p, stop = p with
its last code unit incremented)`, executes the range scan, and returns
exactly the documents whose keys begin with `p`, in ascending key
order. -/
theorem getTicketsByPrefix_scan_correct {α : Type} (store : List (List Nat × α))
    (c : DbCache α) (p : List Nat)
    (hsorted : store.Pairwise (fun x y => keyLt x.1 y.1 = true))
    (hp : p ≠ []) (hlast : p.getLastD 0 < 65535)
    (hc : c.ticketData = none ∨ c.ticketData = some []) :
    queryBounds p = (p, p.dropLast ++ [p.getLastD 0 + 1]) ∧
    (getTicketsByPrefix store c p).1.map (fun e => (e.code, e.data))
      = store.filter (fun kv => beginsWith p kv.1) ∧
    ((getTicketsByPrefix store c p).1.map (fun e => e.code)).Pairwise
      (fun x y => keyLt x y = true) ∧
    (getTicketsByPrefix store c p).2.2 = true := by
  have hmiss := getTicketsByPrefix_miss store c p hc
  have hfe := rangeScan_eq_filter store p hp hlast
  have hfst : (getTicketsByPrefix store c p).1
      = (rangeScan store (queryBounds p).1 (queryBounds p).2).enum.map
          (fun ik => (⟨ik.2.2, ik.1 + 1, ik.2.1⟩ : TEntry α)) := by
    rw [hmiss]
  refine ⟨queryBounds_eq p hp hlast, ?_, ?_, ?_⟩
  · rw [hfst, enumEntries_proj, hfe]
  · rw [hfst, enumEntries_code, hfe]
    have hsub : (store.filter (fun kv => beginsWith p kv.1)).Pairwise
        (fun x y => keyLt x.1 y.1 = true) :=
      List.Pairwise.sublist (List.filter_sublist store) hsorted
    exact List.pairwise_map.mpr hsub
  · rw [hmiss]

/-- Witness for C1: the store `{abc-111, abc-222, abd-333}` queried with
`abc` yields exactly the first two keys, in ascending order, excluding
the third. -/
theorem getTicketsByPrefix_scan_correct_witness :
    (getTicketsByPrefix
        [([97, 98, 99, 45, 49, 49, 49], (1 : Nat)), ([97, 98, 99, 45, 50, 50, 50], 2),
          ([97, 98, 100, 45, 51, 51, 51], 3)]
        initialCache [97, 98, 99]).1.map (fun e => (e.code, e.data))
      = [([97, 98, 99, 45, 49, 49, 49], 1), ([97, 98, 99, 45, 50, 50, 50], 2)] := by
  have h := getTicketsByPrefix_scan_correct
      [([97, 98, 99, 45, 49, 49, 49], (1 : Nat)), ([97, 98, 99, 45, 50, 50, 50], 2),
        ([97, 98, 100, 45, 51, 51, 51], 3)]
      initialCache [97, 98, 99] (by decide) (by decide) (by decide) (Or.inr rfl)
  rw [h.2.1]
  decide

/-- C3: once a call has populated the cache with a non-empty result, a
second call with the same query string returns the cached list without
running the range scan; after `clearCachedData` the next call runs the
range scan again. -/
theorem getTicketsByPrefix_cache_roundtrip {α : Type}
    (store store2 store3 : List (List Nat × α)) (c : DbCache α) (p : List Nat)
    (h : (getTicketsByPrefix store c p).1 ≠ []) :
    getTicketsByPrefix store2 (getTicketsByPrefix store c p).2.1 p
      = ((getTicketsByPrefix store c p).1, (getTicketsByPrefix store c p).2.1, false) ∧
    (getTicketsByPrefix store3 clearCachedData p).2.2 = true := by
  refine ⟨getTicketsByPrefix_hit store2 _ p _
    (getTicketsByPrefix_cache_state store c p) h, ?_⟩
  simp [getTicketsByPrefix, clearCachedData]

/-- Witness for C3: after a first call caches one ticket, a second call
with the same query string does not scan. -/
theorem getTicketsByPrefix_cache_roundtrip_witness :
    (getTicketsByPrefix [([97, 45, 48], (5 : Nat))]
        ((getTicketsByPrefix [([97, 45, 48], (5 : Nat))] initialCache [97]).2.1)
        [97]).2.2
      = false := by
  have h := getTicketsByPrefix_cache_roundtrip [([97, 45, 48], (5 : Nat))]
    [([97, 45, 48], (5 : Nat))] [] initialCache [97] (by decide)
  rw [h.1]

/-- C9: the ticket cache is not keyed by the query string; once a call
with `p1` has cached a non-empty result, a call with any other string
`p2` returns the tickets cached for `p1` and performs no range scan. -/
theorem getTicketsByPrefix_cache_ignores_arg {α : Type}
    (store store2 : List (List Nat × α)) (c : DbCache α) (p1 p2 : List Nat)
    (_hne : p1 ≠ p2) (h : (getTicketsByPrefix store c p1).1 ≠ []) :
    getTicketsByPrefix store2 (getTicketsByPrefix store c p1).2.1 p2
      = ((getTicketsByPrefix store c p1).1,
          (getTicketsByPrefix store c p1).2.1, false) :=
  getTicketsByPrefix_hit store2 _ p2 _ (getTicketsByPrefix_cache_state store c p1) h

/-- Witness for C9: a result cached for `a` is served unchanged for the
distinct query string `x`, against an empty store and with no scan. -/
theorem getTicketsByPrefix_cache_ignores_arg_witness :
    getTicketsByPrefix []
        ((getTicketsByPrefix [([97, 45, 48], (5 : Nat))] initialCache [97]).2.1) [120]
      = ((getTicketsByPrefix [([97, 45, 48], (5 : Nat))] initialCache [97]).1,
          (getTicketsByPrefix [([97, 45, 48], (5 : Nat))] initialCache [97]).2.1,
          false) :=
  getTicketsByPrefix_cache_ignores_arg [([97, 45, 48], (5 : Nat))] [] initialCache
    [97] [120] (by decide) (by decide)
